import Mathlib

/-!
# Marian: `common/logging.h` and `common/file_stream.h`

A shallow embedding of the logging front end (`checkedLog`, `ABORT`, `ABORT_IF`) and of the
file-stream helpers (`TemporaryFile`, `InputFileStream`, `OutputFileStream`; the POSIX branch
of every `#ifdef _MSC_VER`), over an explicit model of the process environment: a file
system, a descriptor table, the spdlog registry and the sequence of emitted messages.

C++ strings and byte buffers are lists of characters.
-/

namespace Marian

/-- A `std::string`, a `char*` buffer or a run of bytes. -/
abbrev Str := List Char

/-! ## The process environment -/

/-- What a path names: a directory (with its write permission) or a regular file (by inode). -/
inductive Entry where
  | dir (writable : Bool)
  | file (ino : Nat)
  deriving DecidableEq, Repr

/-- An open file description: the inode it refers to and the current offset. -/
structure OpenFile where
  ino : Nat
  offset : Nat
  deriving DecidableEq, Repr

/-- The spdlog severities. -/
inductive Severity where
  | trace | debug | info | warn | error | critical
  deriving DecidableEq, Repr

/-- A registered spdlog logger: its name, its pattern and the names of its sinks. -/
structure Logger where
  name : Str
  pattern : Str
  sinks : List Str
  deriving DecidableEq, Repr

/-- Something the process writes out, in order of emission. -/
inductive Event where
  | log (logger : Str) (sev : Severity) (msg : Str)
  | callStack (skipLevels : Nat)
  | cerr (line : Str)
  deriving DecidableEq, Repr

/-- A system call that was made, with its argument and its return value. -/
inductive Call where
  | mkstemp (name : Str) (ret : Int)
  | unlink (path : Str) (ret : Int)
  | close (fd : Int) (ret : Int)
  | lseek (fd : Int) (ret : Int)
  deriving DecidableEq, Repr

/-- The state of the process and of the file system it runs on. Paths are compared as
strings: no normalisation of repeated separators, dot components or links. -/
structure World where
  entries : Str → Option Entry
  inodes : Nat → List Char
  fds : Int → Option OpenFile
  nextIno : Nat
  nextFd : Nat
  loggers : List Logger
  out : List Event
  calls : List Call

/-- The result of running a piece of code that may call `abort()`. -/
inductive Run (α : Type) where
  | done (a : α) (w : World)
  | aborted (w : World)

/-- The final environment of a run, however it ended. -/
def Run.world {α : Type} : Run α → World
  | .done _ w => w
  | .aborted w => w

/-- Whether the run ended in `abort()`. -/
def Run.isAborted {α : Type} : Run α → Bool
  | .done _ _ => false
  | .aborted _ => true

/-! ## Logging (`common/logging.h`) -/

/-- The fmt library on a format string whose only replacement fields are `{}`: each field is
replaced by the next argument; a field without an argument is left as it is. -/
def fmtFormat : Str → List Str → Str
  | [], _ => []
  | [c], _ => [c]
  | c :: d :: rest, [] => c :: fmtFormat (d :: rest) []
  | c :: d :: rest, a :: more =>
    if c = '{' ∧ d = '}' then a ++ fmtFormat rest more
    else c :: fmtFormat (d :: rest) (a :: more)

/-- Model of `spdlog::get`: the registered logger of that name, if any. -/
def spdlogGet (w : World) (name : Str) : Option Logger :=
  w.loggers.find? (fun l => l.name = name)

/-- Modelled from the spec: `createStderrLogger`, only declared in `logging.h`. It builds a
logger of the given name and pattern whose sink is stderr and registers it. -/
def createStderrLogger (name pattern : Str) (w : World) : Logger × World :=
  let l : Logger := ⟨name, pattern, ["stderr".toList]⟩
  (l, { w with loggers := l :: w.loggers })

/-- A call of one of the severity methods of a logger (`log->critical(args...)` and so on):
the formatted message is handed to the logger at that severity. -/
def Logger.emit (l : Logger) (sev : Severity) (fmt : Str) (args : List Str) (w : World) :
    World :=
  { w with out := w.out ++ [Event.log l.name sev (fmtFormat fmt args)] }

/-- The function `checkedLog` of `logging.h`; `fmt` and `args` stand for `args...`. -/
def checkedLog (logger level : Str) (fmt : Str) (args : List Str) (w : World) : World :=
  match spdlogGet w logger with
  | none =>
    if level = "critical".toList then
      match spdlogGet w "error".toList with
      | some errlog => errlog.emit Severity.critical fmt args w
      | none =>
        let r := createStderrLogger "error".toList "Error: %v - aborting".toList w
        r.1.emit Severity.critical fmt args r.2
    else w
  | some log =>
    if level = "trace".toList then log.emit Severity.trace fmt args w
    else if level = "debug".toList then log.emit Severity.debug fmt args w
    else if level = "info".toList then log.emit Severity.info fmt args w
    else if level = "warn".toList then log.emit Severity.warn fmt args w
    else if level = "error".toList then log.emit Severity.error fmt args w
    else if level = "critical".toList then log.emit Severity.critical fmt args w
    else
      log.emit Severity.warn "Unknown log level '\x7b\x7d' for logger '\x7b\x7d'".toList
        [level, logger] w

/-- Modelled from the spec: `marian::logCallStack`, only declared in `logging.h`. Critical
calls "also print a call-stack trace"; the trace is one event of its own. -/
def logCallStack (skipLevels : Nat) (w : World) : World :=
  { w with out := w.out ++ [Event.callStack skipLevels] }

/-- The place an `ABORT` is expanded at: `FUNCTION_NAME`, `__FILE__` and `__LINE__`. Their
values are the compiler's; the ones used below are what GCC prints for `file_stream.h`. -/
structure Loc where
  func : Str
  file : Str
  line : Nat
  deriving DecidableEq, Repr

/-- The macro `ABORT(...)` up to, and not including, the final `abort()`: the critical
message, the call stack, and the "Aborted from" line on `std::cerr`. -/
def ABORT (loc : Loc) (fmt : Str) (args : List Str) (w : World) : World :=
  let w1 := checkedLog "general".toList "critical".toList fmt args w
  let w2 := logCallStack 0 w1
  { w2 with out := w2.out ++ [Event.cerr ("Aborted from ".toList ++ loc.func ++ " in ".toList
      ++ loc.file ++ ": ".toList ++ (Nat.repr loc.line).toList)] }

/-- The environment an `ABORT` ends in, written out: one critical message, sent to
`general` when that logger is registered and to `error` otherwise (which is registered if
need be), then the call stack, then the line on stderr. -/
def afterAbort (loc : Loc) (msg : Str) (w : World) : World :=
  { w with
    loggers :=
      if (spdlogGet w "general".toList).isSome ∨ (spdlogGet w "error".toList).isSome
      then w.loggers
      else ⟨"error".toList, "Error: %v - aborting".toList, ["stderr".toList]⟩ :: w.loggers,
    out := w.out ++
      [Event.log (if (spdlogGet w "general".toList).isSome then "general".toList
          else "error".toList) Severity.critical msg,
        Event.callStack 0,
        Event.cerr ("Aborted from ".toList ++ loc.func ++ " in ".toList ++ loc.file
          ++ ": ".toList ++ (Nat.repr loc.line).toList)] }

/-! ## The operating system, as far as `file_stream.h` uses it -/

/-- The character that ends a C string. -/
def NUL : Char := Char.ofNat 0

/-- The C string held in a buffer: the characters before the first NUL
(`std::string::c_str` read as a `char*`). -/
def c_str (s : Str) : Str := s.takeWhile (fun c => c != NUL)

/-- Model of `stat`: what the path names, `none` standing for the return value `-1`. -/
def stat (w : World) (path : Str) : Option Entry := w.entries path

/-- The test `S_ISDIR(sb.st_mode)`. -/
def S_ISDIR : Entry → Bool
  | .dir _ => true
  | .file _ => false

/-- Whether a path exists (`boost::filesystem::exists`). -/
def pathExists (w : World) (path : Str) : Bool := (w.entries path).isSome

/-- The directory a path lies in: the text before the last run of separators, `/` for an
entry of the root and `.` for a path without a separator. -/
def dirname (path : Str) : Str :=
  if '/' ∈ path then
    let d := ((path.reverse.dropWhile (fun c => c != '/')).dropWhile (fun c => c == '/')).reverse
    if d = [] then ['/'] else d
  else ['.']

/-- The environment after the directory entry `path` was removed; the inode stays. -/
def World.remove (w : World) (path : Str) : World :=
  { w with entries := fun p => if p = path then none else w.entries p,
           calls := w.calls ++ [Call.unlink path 0] }

/-- Model of `unlink`: removes the directory entry of a regular file and returns `0`;
returns `-1` when the path does not name a regular file. -/
def unlink (path : Str) (w : World) : Int × World :=
  match w.entries path with
  | some (Entry.file _) => (0, w.remove path)
  | _ => (-1, { w with calls := w.calls ++ [Call.unlink path (-1)] })

/-- Model of `close`: frees an open descriptor and returns `0`; `-1` when it is not open. -/
def close (fd : Int) (w : World) : Int × World :=
  match w.fds fd with
  | some _ =>
    (0, { w with fds := fun d => if d = fd then none else w.fds d,
                 calls := w.calls ++ [Call.close fd 0] })
  | none => (-1, { w with calls := w.calls ++ [Call.close fd (-1)] })

/-- Model of `lseek(fd, offset, SEEK_SET)`: sets the offset of an open descriptor and
returns it; `-1` when the descriptor is not open. -/
def lseek (fd : Int) (offset : Nat) (w : World) : Int × World :=
  match w.fds fd with
  | some f =>
    (offset, { w with fds := fun d => if d = fd then some ⟨f.ino, offset⟩ else w.fds d,
                      calls := w.calls ++ [Call.lseek fd offset] })
  | none => (-1, { w with calls := w.calls ++ [Call.lseek fd (-1)] })

/-- The platform's choice of the six characters that replace `XXXXXX`: from the test
"does this path exist" and the text before the `XXXXXX`, a proposal or a failure. -/
abbrev Pick := (Str → Bool) → Str → Option Str

/-- The environment after a new, empty regular file `name` was created and opened: a fresh
inode, a directory entry for it, and the next free descriptor open on it at offset 0. -/
def World.create (w : World) (name : Str) : World :=
  { w with
    entries := fun p => if p = name then some (Entry.file w.nextIno) else w.entries p,
    inodes := fun i => if i = w.nextIno then [] else w.inodes i,
    fds := fun d => if d = (w.nextFd : Int) then some ⟨w.nextIno, 0⟩ else w.fds d,
    nextIno := w.nextIno + 1,
    nextFd := w.nextFd + 1,
    calls := w.calls ++ [Call.mkstemp name (w.nextFd : Int)] }

/-- Model of `mkstemp`. It fails with `-1` when the template does not end in `XXXXXX`,
when its directory does not exist or is not writable, when no name is proposed, or when
the proposed name is not six alphanumeric characters or exists already (the file is created
exclusively). Otherwise the file is created empty and opened: the result is the new
descriptor and the template with the six characters filled in. -/
def mkstemp (pick : Pick) (tmpl : Str) (w : World) : (Int × Str) × World :=
  let stem := tmpl.take (tmpl.length - 6)
  let failed : (Int × Str) × World :=
    ((-1, tmpl), { w with calls := w.calls ++ [Call.mkstemp tmpl (-1)] })
  if tmpl.drop (tmpl.length - 6) = "XXXXXX".toList then
    match w.entries (dirname tmpl) with
    | some (Entry.dir true) =>
      match pick (pathExists w) stem with
      | some six =>
        if six.length = 6 ∧ six.all Char.isAlphanum = true ∧ w.entries (stem ++ six) = none then
          (((w.nextFd : Int), stem ++ six), w.create (stem ++ six))
        else failed
      | none => failed
    | _ => failed
  else failed

/-! ## `TemporaryFile` -/

/-- The data members of `TemporaryFile`. -/
structure TemporaryFile where
  fd_ : Int
  unlink_ : Bool
  name_ : Str
  deriving DecidableEq, Repr

/-- The source file, as `__FILE__` names it. -/
def fileStreamH : Str := "common/file_stream.h".toList

/-- The method `TemporaryFile::mkstemp_and_unlink`. `tmpl` is the buffer behind the `char*`;
the result is the return value and the buffer as `mkstemp` left it. -/
def TemporaryFile.mkstemp_and_unlink (pick : Pick) (unlink_ : Bool) (tmpl : Str) (w : World) :
    Run (Int × Str) :=
  let r := mkstemp pick (c_str tmpl) w
  let ret := r.1.1
  let buf := r.1.2 ++ tmpl.drop (c_str tmpl).length
  if unlink_ = true ∧ ret ≠ -1 then
    let u := unlink (c_str buf) r.2
    if u.1 ≠ 0 then
      Run.aborted (ABORT ⟨"int TemporaryFile::mkstemp_and_unlink(char*)".toList, fileStreamH, 32⟩
        "Error while deleting '\x7b\x7d'".toList [c_str buf] u.2)
    else Run.done (ret, buf) u.2
  else Run.done (ret, buf) r.2

/-- The method `TemporaryFile::MakeTemp` (POSIX branch): the return value and the new value
of `name_`. -/
def TemporaryFile.MakeTemp (pick : Pick) (unlink_ : Bool) (base : Str) (w : World) :
    Run (Int × Str) :=
  let name := base ++ "marian.XXXXXX".toList ++ [NUL]
  match TemporaryFile.mkstemp_and_unlink pick unlink_ name w with
  | Run.aborted w1 => Run.aborted w1
  | Run.done (ret, name1) w1 =>
    if -1 = ret then
      Run.aborted (ABORT ⟨"int TemporaryFile::MakeTemp(const string&)".toList, fileStreamH, 63⟩
        "Error while making a temporary based on '\x7b\x7d'".toList [base] w1)
    else Run.done (ret, name1) w1

/-- The method `TemporaryFile::NormalizeTempPrefix` (POSIX branch): the new value of `base`. -/
def TemporaryFile.NormalizeTempPrefix (w : World) (base : Str) : Str :=
  if base = [] then base
  else if base.getLast? = some '/' then base
  else
    match stat w (c_str base) with
    | none => base
    | some sb => if S_ISDIR sb then base ++ ['/'] else base

/-- The constructor `TemporaryFile(base, earlyUnlink)`; the defaults of the two arguments
are `/tmp/` and `true`. -/
def TemporaryFile.construct (pick : Pick) (base : Str) (earlyUnlink : Bool) (w : World) :
    Run TemporaryFile :=
  let baseTemp := TemporaryFile.NormalizeTempPrefix w base
  match TemporaryFile.MakeTemp pick earlyUnlink baseTemp w with
  | Run.aborted w1 => Run.aborted w1
  | Run.done (ret, name) w1 => Run.done ⟨ret, earlyUnlink, name⟩ w1

/-- The destructor `~TemporaryFile` (POSIX branch). -/
def TemporaryFile.destroy (t : TemporaryFile) (w : World) : Run Unit :=
  let afterUnlink : Run Unit :=
    if t.fd_ ≠ -1 ∧ t.unlink_ = false then
      let u := unlink (c_str t.name_) w
      if u.1 ≠ 0 then
        Run.aborted (ABORT ⟨"TemporaryFile::~TemporaryFile()".toList, fileStreamH, 113⟩
          "Error while deleting '\x7b\x7d'".toList [t.name_] u.2)
      else Run.done () u.2
    else Run.done () w
  match afterUnlink with
  | Run.aborted w1 => Run.aborted w1
  | Run.done _ w1 =>
    if t.fd_ ≠ -1 then
      let c := close t.fd_ w1
      if c.1 ≠ 0 then
        Run.aborted { c.2 with out := c.2.out ++
          [Event.cerr ("Could not close file ".toList ++ (toString t.fd_).toList)] }
      else Run.done () c.2
    else Run.done () w1

/-- The accessor `getFileDescriptor()`. -/
def TemporaryFile.getFileDescriptor (t : TemporaryFile) : Int := t.fd_

/-- The accessor `getFileName()`. -/
def TemporaryFile.getFileName (t : TemporaryFile) : Str := t.name_

/-! ### A concrete environment to run the code on -/

/-- A platform that proposes `aaaaaa`, or `aaaaab` when that exists, or gives up. -/
def pickFirst : Pick := fun ex stem =>
  if ex (stem ++ "aaaaaa".toList) = false then some "aaaaaa".toList
  else if ex (stem ++ "aaaaab".toList) = false then some "aaaaab".toList
  else none

/-- A file system with the writable directories `/` and `/tmp`, the read-only directory
`/ro`, the empty file `/tmp/empty.txt` (inode 0) and the file `/tmp/data.gz` (inode 1);
nothing is open and no logger is registered. -/
def world0 : World where
  entries := fun p =>
    if p = "/".toList then some (Entry.dir true)
    else if p = "/tmp".toList then some (Entry.dir true)
    else if p = "/ro".toList then some (Entry.dir false)
    else if p = "/tmp/empty.txt".toList then some (Entry.file 0)
    else if p = "/tmp/data.gz".toList then some (Entry.file 1)
    else none
  inodes := fun i => if i = 1 then "gzipped".toList else []
  fds := fun _ => none
  nextIno := 2
  nextFd := 3
  loggers := []
  out := []
  calls := []

/-! ## `boost::filesystem::path` and the file streams of the standard library -/

/-- Model of `boost::filesystem::path::filename` (Boost.Filesystem version 3, POSIX). For a
path that ends in a separator: the path itself when it is `//`, `/` when the trailing
separators are a root (the whole path, or what follows a network name `//name`), and `.`
otherwise. For any other path: the whole path for a network name `//name`, and the text
after the last separator otherwise. -/
def filename (path : Str) : Str :=
  if path.getLast? = some '/' then
    let body := (path.reverse.dropWhile (fun c => c == '/')).reverse
    if path = ['/', '/'] then path
    else if body = [] then ['/']
    else
      match body with
      | '/' :: '/' :: name => if '/' ∈ name then ['.'] else ['/']
      | _ => ['.']
  else
    match path with
    | '/' :: '/' :: rest => if '/' ∈ rest then (path.reverse.takeWhile (fun c => c != '/')).reverse
                            else path
    | _ => (path.reverse.takeWhile (fun c => c != '/')).reverse

/-- Model of `boost::filesystem::path::extension` (version 3): empty for the names `.` and
`..` and for a name without a dot, otherwise the name from its last dot on. -/
def extension (path : Str) : Str :=
  let name := filename path
  if name = ['.'] ∨ name = ['.', '.'] then []
  else if '.' ∈ name then '.' :: (name.reverse.takeWhile (fun c => c != '.')).reverse
  else []

/-- Model of opening a `boost::filesystem::ifstream`: the stream is open on a regular file
at offset 0, and not open on anything else. The file system is not changed. -/
def ifstreamOpen (path : Str) (w : World) : Option OpenFile :=
  match w.entries path with
  | some (Entry.file i) => some ⟨i, 0⟩
  | _ => none

/-- Model of opening a `boost::filesystem::ofstream` (mode `out`, which truncates): an
existing regular file is emptied; a missing file is created, empty, when its directory
exists and is writable; in every other case the stream is not open. -/
def ofstreamOpen (path : Str) (w : World) : Option OpenFile × World :=
  match w.entries path with
  | some (Entry.file i) =>
    (some ⟨i, 0⟩, { w with inodes := fun j => if j = i then [] else w.inodes j })
  | some (Entry.dir _) => (none, w)
  | none =>
    if path ≠ [] ∧ path.getLast? ≠ some '/' ∧ w.entries (dirname path) = some (Entry.dir true) then
      (some ⟨w.nextIno, 0⟩,
        { w with
          entries := fun p => if p = path then some (Entry.file w.nextIno) else w.entries p,
          inodes := fun j => if j = w.nextIno then [] else w.inodes j,
          nextIno := w.nextIno + 1 })
    else (none, w)

/-- Model of `std::istream::peek` on the member `ifstream_`: the next byte of the file, and
end-of-file (`none`) when there is none or when the stream is not open. -/
def ifstreamPeek (f : Option OpenFile) (w : World) : Option Char :=
  match f with
  | none => none
  | some o => ((w.inodes o.ino).drop o.offset).head?

/-- An element of a Boost.Iostreams filter chain, in the order it was pushed. -/
inductive Stage where
  | gzipDecompressor
  | gzipCompressor
  | ifstream
  | ofstream
  | fds (bufferSize : Nat)
  | strm (bufferSize : Nat)
  deriving DecidableEq, Repr

/-- The size of the buffer a chain element was pushed with (4096 is the default of
Boost.Iostreams for a device). -/
def Stage.bufferSize : Stage → Nat
  | .fds n => n
  | .strm n => n
  | _ => 4096

/-- The bytes `data` written into a file at offset `off` (a gap is filled with NUL). -/
def writeAt (content : Str) (off : Nat) (data : Str) : Str :=
  content.take off ++ List.replicate (off - content.length) NUL ++ data
    ++ content.drop (off + data.length)

/-! ## `InputFileStream` -/

/-- The data members of `InputFileStream`, with the two pieces of state that live outside
of them: the bytes left in the external stream `strm` a stream was built over, and the
bytes the chain `istream_` holds in its buffer. -/
structure InputFileStream where
  file_ : Str
  ifstream_ : Option OpenFile
  fds_ : Int
  istream_ : List Stage
  strm : Str
  buffer : Str
  deriving DecidableEq, Repr

/-- The constructor `InputFileStream(const std::string& file)`. -/
def InputFileStream.ofPath (file : Str) (w : World) : Run InputFileStream :=
  let file_ := file
  let ifstream_ := ifstreamOpen (c_str file_) w
  if pathExists w (c_str file_) = false then
    Run.aborted (ABORT ⟨"InputFileStream::InputFileStream(const string&)".toList, fileStreamH, 130⟩
      "File '\x7b\x7d' does not exist".toList [file] w)
  else
    let gz := if extension file_ = ".gz".toList then [Stage.gzipDecompressor] else []
    Run.done ⟨file_, ifstream_, -1, gz ++ [Stage.ifstream], [], []⟩ w

/-- The constructor `InputFileStream(TemporaryFile& tempfile)`. The value of `lseek` is
not looked at. -/
def InputFileStream.ofTemp (tempfile : TemporaryFile) (w : World) : Run InputFileStream :=
  let r := lseek tempfile.getFileDescriptor 0 w
  Run.done ⟨[], none, tempfile.getFileDescriptor, [Stage.fds 1024], [], []⟩ r.2

/-- The constructor `InputFileStream(std::istream& strm)`; `strm` is what the stream has
left to deliver. -/
def InputFileStream.ofStream (strm : Str) (w : World) : Run InputFileStream :=
  Run.done ⟨[], none, -1, [Stage.strm 0], strm, []⟩ w

/-- The method `InputFileStream::empty`. -/
def InputFileStream.empty (s : InputFileStream) (w : World) : Bool :=
  ifstreamPeek s.ifstream_ w == none

/-- The method `InputFileStream::path`. -/
def InputFileStream.path (s : InputFileStream) : Str := s.file_

/-- One read of at most `k` bytes from the device at the end of the chain. The compression
stages are not modelled: on a chain that has one the result is `none`. -/
def InputFileStream.deviceRead (s : InputFileStream) (k : Nat) (w : World) :
    Option (Str × InputFileStream × World) :=
  match s.istream_ with
  | [Stage.ifstream] =>
    match s.ifstream_ with
    | some f =>
      let chunk := ((w.inodes f.ino).drop f.offset).take k
      some (chunk, { s with ifstream_ := some ⟨f.ino, f.offset + chunk.length⟩ }, w)
    | none => some ([], s, w)
  | [Stage.fds _] =>
    match w.fds s.fds_ with
    | some f =>
      let chunk := ((w.inodes f.ino).drop f.offset).take k
      some (chunk, s, { w with fds := fun d =>
        if d = s.fds_ then some ⟨f.ino, f.offset + chunk.length⟩ else w.fds d })
    | none => some ([], s, w)
  | [Stage.strm _] => some (s.strm.take k, { s with strm := s.strm.drop k }, w)
  | _ => none

/-- The size of the buffer of the chain: that of its last element. -/
def chainBufferSize (chain : List Stage) : Nat :=
  match chain.getLast? with
  | some st => st.bufferSize
  | none => 0

/-- The next byte of the chain (`sbumpc`): from the buffer, which is refilled from the device
when it is empty (a buffer of size 0 reads one byte at a time); `none` inside is
end-of-file. -/
def InputFileStream.sbumpc (s : InputFileStream) (w : World) :
    Option (Option Char × InputFileStream × World) :=
  match s.buffer with
  | c :: rest => some (some c, { s with buffer := rest }, w)
  | [] =>
    match s.deviceRead (max (chainBufferSize s.istream_) 1) w with
    | none => none
    | some (chunk, s1, w1) =>
      match chunk with
      | [] => some (none, s1, w1)
      | c :: rest => some (some c, { s1 with buffer := rest }, w1)

/-- The call `istream_.read(ptr, n)`: the bytes stored at `ptr`, at most `n`, fewer at
end-of-file. -/
def InputFileStream.readBytes : Nat → InputFileStream → World →
    Option (Str × InputFileStream × World)
  | 0, s, w => some ([], s, w)
  | n + 1, s, w =>
    match s.sbumpc w with
    | none => none
    | some (none, s1, w1) => some ([], s1, w1)
    | some (some c, s1, w1) =>
      match InputFileStream.readBytes n s1 w1 with
      | none => none
      | some (cs, s2, w2) => some (c :: cs, s2, w2)

/-- The method `InputFileStream::read<T>(ptr, num)` for a `T` of size `sizeofT`: the return
value `num * sizeof(T)` and the bytes stored at `ptr`. -/
def InputFileStream.read (sizeofT : Nat) (s : InputFileStream) (num : Nat) (w : World) :
    Option ((Nat × Str) × InputFileStream × World) :=
  match InputFileStream.readBytes (num * sizeofT) s w with
  | none => none
  | some (bytes, s1, w1) => some ((num * sizeofT, bytes), s1, w1)

/-! ## `OutputFileStream` -/

/-- The data members of `OutputFileStream`, with the bytes written so far to the external
stream `strm` and the bytes the chain `ostream_` holds in its buffer. -/
structure OutputFileStream where
  file_ : Str
  ofstream_ : Option OpenFile
  fds_ : Int
  ostream_ : List Stage
  strm : Str
  buffer : Str
  deriving DecidableEq, Repr

/-- The constructor `OutputFileStream(const std::string& file)`: the members are
initialised in the order of their declaration, `file_` and then `ofstream_`, before the
body runs. -/
def OutputFileStream.ofPath (file : Str) (w : World) : Run OutputFileStream :=
  let file_ := file
  let opened := ofstreamOpen (c_str file_) w
  let ofstream_ := opened.1
  let w1 := opened.2
  if pathExists w1 (c_str file_) = false then
    Run.aborted (ABORT
      ⟨"OutputFileStream::OutputFileStream(const string&)".toList, fileStreamH, 176⟩
      "File '\x7b\x7d' does not exist".toList [file] w1)
  else
    let gz := if extension file_ = ".gz".toList then [Stage.gzipCompressor] else []
    Run.done ⟨file_, ofstream_, -1, gz ++ [Stage.ofstream], [], []⟩ w1

/-- The constructor `OutputFileStream(TemporaryFile& tempfile)`. The value of `lseek` is
not looked at. -/
def OutputFileStream.ofTemp (tempfile : TemporaryFile) (w : World) : Run OutputFileStream :=
  let r := lseek tempfile.getFileDescriptor 0 w
  Run.done ⟨[], none, tempfile.getFileDescriptor, [Stage.fds 1024], [], []⟩ r.2

/-- The constructor `OutputFileStream(std::ostream& strm)`; `strm` is what the stream
holds already. -/
def OutputFileStream.ofStream (strm : Str) (w : World) : Run OutputFileStream :=
  Run.done ⟨[], none, -1, [Stage.strm 0], strm, []⟩ w

/-- The method `OutputFileStream::path`. -/
def OutputFileStream.path (s : OutputFileStream) : Str := s.file_

/-- One write of `data` to the device at the end of the chain. The compression stages are
not modelled: on a chain that has one the result is `none`. A write to a descriptor that
is not open is lost. -/
def OutputFileStream.deviceWrite (s : OutputFileStream) (data : Str) (w : World) :
    Option (OutputFileStream × World) :=
  match s.ostream_ with
  | [Stage.ofstream] =>
    match s.ofstream_ with
    | some f =>
      some ({ s with ofstream_ := some ⟨f.ino, f.offset + data.length⟩ },
        { w with inodes := fun i =>
          if i = f.ino then writeAt (w.inodes f.ino) f.offset data else w.inodes i })
    | none => some (s, w)
  | [Stage.fds _] =>
    match w.fds s.fds_ with
    | some f =>
      some (s, { w with
        inodes := fun i =>
          if i = f.ino then writeAt (w.inodes f.ino) f.offset data else w.inodes i,
        fds := fun d =>
          if d = s.fds_ then some ⟨f.ino, f.offset + data.length⟩ else w.fds d })
    | none => some (s, w)
  | [Stage.strm _] => some ({ s with strm := s.strm ++ data }, w)
  | _ => none

/-- Flushing the chain (`ostream_.flush()`, also done when the stream is destroyed): the
buffered bytes go to the device. -/
def OutputFileStream.flush (s : OutputFileStream) (w : World) :
    Option (OutputFileStream × World) :=
  match s.deviceWrite s.buffer w with
  | none => none
  | some (s1, w1) => some ({ s1 with buffer := [] }, w1)

/-- One byte into the chain (`sputc`): it is stored in the buffer, which is first written
out to the device when it is full; with a buffer of size 0 the byte goes to the device
at once. -/
def OutputFileStream.sputc (s : OutputFileStream) (c : Char) (w : World) :
    Option (OutputFileStream × World) :=
  if chainBufferSize s.ostream_ = 0 then s.deviceWrite [c] w
  else if s.buffer.length < chainBufferSize s.ostream_ then
    match s.ostream_ with
    | [Stage.ofstream] | [Stage.fds _] | [Stage.strm _] =>
      some ({ s with buffer := s.buffer ++ [c] }, w)
    | _ => none
  else
    match s.flush w with
    | none => none
    | some (s1, w1) => some ({ s1 with buffer := [c] }, w1)

/-- The call `ostream_.write(ptr, n)` for the `n` bytes `data` at `ptr`. -/
def OutputFileStream.writeBytes : Str → OutputFileStream → World →
    Option (OutputFileStream × World)
  | [], s, w => some (s, w)
  | c :: cs, s, w =>
    match s.sputc c w with
    | none => none
    | some (s1, w1) => OutputFileStream.writeBytes cs s1 w1

/-- The method `OutputFileStream::write<T>(ptr, num)`, `data` being the `num * sizeof(T)`
bytes at `ptr`: the return value is their number. -/
def OutputFileStream.write (s : OutputFileStream) (data : Str) (w : World) :
    Option (Nat × OutputFileStream × World) :=
  match OutputFileStream.writeBytes data s w with
  | none => none
  | some (s1, w1) => some (data.length, s1, w1)

/-- The buffer `MakeTemp` hands to `mkstemp`: the normalised base, the fixed template and
the NUL that was pushed onto it. -/
def tmplBuffer (w : World) (base : Str) : Str :=
  TemporaryFile.NormalizeTempPrefix w base ++ "marian.XXXXXX".toList ++ [NUL]

/-- The text of a template buffer in front of its last six characters. -/
def tmplStem (buf : Str) : Str := (c_str buf).take ((c_str buf).length - 6)

/-! ## Scenarios -/

/-- The scenario of the specification: write `b` through an `OutputFileStream` over the
temporary file `t`, flush the output stream or not, then build an `InputFileStream` over
the same `t` and read `b.length` bytes; the result is the bytes the read delivers. -/
def writeThenRead (flushed : Bool) (t : TemporaryFile) (b : Str) (w : World) : Option Str :=
  match OutputFileStream.ofTemp t w with
  | Run.aborted _ => none
  | Run.done out w1 =>
    match out.write b w1 with
    | none => none
    | some (_, out1, w2) =>
      match (if flushed = true then out1.flush w2 else some (out1, w2)) with
      | none => none
      | some (_, w3) =>
        match InputFileStream.ofTemp t w3 with
        | Run.aborted _ => none
        | Run.done inp w4 =>
          match inp.read 1 b.length w4 with
          | none => none
          | some ((_, bytes), _, _) => some bytes

/-- A temporary file of `/tmp/` in `world0` that holds the five bytes `hello`: they were
written through an `OutputFileStream` over it, which was then flushed. -/
def helloTemp : Option (TemporaryFile × World) :=
  match TemporaryFile.construct pickFirst "/tmp/".toList true world0 with
  | Run.aborted _ => none
  | Run.done t w1 =>
    match OutputFileStream.ofTemp t w1 with
    | Run.aborted _ => none
    | Run.done out w2 =>
      match out.write "hello".toList w2 with
      | none => none
      | some (_, out1, w3) =>
        match out1.flush w3 with
        | none => none
        | some (_, w4) => some (t, w4)

/-! ## Logging: what `checkedLog` and `ABORT` emit -/

/-- The logger `spdlog::get` returns has the name that was asked for. -/
theorem spdlogGet_name (w : World) (n : Str) (l : Logger) (h : spdlogGet w n = some l) :
    l.name = n := by
  unfold spdlogGet at h
  have := List.find?_some h
  simpa using this

/-- A critical `checkedLog` on `general` emits exactly one message, at critical severity. -/
theorem checkedLog_general_critical (fmt : Str) (args : List Str) (w : World) :
    checkedLog "general".toList "critical".toList fmt args w =
      { w with
        loggers :=
          if (spdlogGet w "general".toList).isSome ∨ (spdlogGet w "error".toList).isSome
          then w.loggers
          else ⟨"error".toList, "Error: %v - aborting".toList, ["stderr".toList]⟩ :: w.loggers,
        out := w.out ++ [Event.log (if (spdlogGet w "general".toList).isSome
            then "general".toList else "error".toList) Severity.critical
          (fmtFormat fmt args)] } := by
  unfold checkedLog
  cases hg : spdlogGet w "general".toList with
  | some l =>
    have hn := spdlogGet_name w _ l hg
    have h1 : ("critical".toList = "trace".toList) = False := by decide
    have h2 : ("critical".toList = "debug".toList) = False := by decide
    have h3 : ("critical".toList = "info".toList) = False := by decide
    have h4 : ("critical".toList = "warn".toList) = False := by decide
    have h5 : ("critical".toList = "error".toList) = False := by decide
    simp only [h1, h2, h3, h4, h5, if_false, if_true, Logger.emit, hn, Option.isSome_some,
      true_or]
  | none =>
    cases he : spdlogGet w "error".toList with
    | some l =>
      have hn := spdlogGet_name w _ l he
      simp [Logger.emit, hn]
    | none => simp [Logger.emit, createStderrLogger]

/-- What `ABORT` leaves behind: the critical message, the call stack, the line on stderr. -/
theorem ABORT_eq (loc : Loc) (fmt : Str) (args : List Str) (w : World) :
    ABORT loc fmt args w = afterAbort loc (fmtFormat fmt args) w := by
  unfold ABORT afterAbort
  rw [checkedLog_general_critical]
  simp [logCallStack]

/-- The message of the existence check of the stream constructors. -/
theorem fmt_does_not_exist (file : Str) :
    fmtFormat "File '\x7b\x7d' does not exist".toList [file]
      = "File '".toList ++ file ++ "' does not exist".toList := by
  simp [fmtFormat]

/-- The message of a failed `unlink`. -/
theorem fmt_deleting (path : Str) :
    fmtFormat "Error while deleting '\x7b\x7d'".toList [path]
      = "Error while deleting '".toList ++ path ++ "'".toList := by
  simp [fmtFormat]

/-- The message of a failed `mkstemp`. -/
theorem fmt_making (base : Str) :
    fmtFormat "Error while making a temporary based on '\x7b\x7d'".toList [base]
      = "Error while making a temporary based on '".toList ++ base ++ "'".toList := by
  simp [fmtFormat]

/-- Claim C10: while no logger of the given name is registered, `checkedLog` at a level
other than "critical" changes nothing (no message, no logger created); at the level
"critical" it emits the message exactly once, at critical severity, to the logger named
"error", which is created as a stderr logger when it is not registered and reused when it
is. -/
theorem checkedLog_unregistered (logger level fmt : Str) (args : List Str) (w : World)
    (h : spdlogGet w logger = none) :
    (level ≠ "critical".toList → checkedLog logger level fmt args w = w) ∧
    (level = "critical".toList →
      checkedLog logger level fmt args w =
        { w with
          loggers :=
            if (spdlogGet w "error".toList).isSome then w.loggers
            else ⟨"error".toList, "Error: %v - aborting".toList, ["stderr".toList]⟩ :: w.loggers,
          out := w.out ++ [Event.log "error".toList Severity.critical (fmtFormat fmt args)] }) := by
  unfold checkedLog
  rw [h]
  constructor
  · intro hl
    simp only [if_neg hl]
  · intro hl
    simp only [if_pos hl]
    cases he : spdlogGet w "error".toList with
    | some l =>
      have hn := spdlogGet_name w _ l he
      simp [Logger.emit, hn]
    | none => simp [Logger.emit, createStderrLogger]

/-- Witness for C10 on the environment `world0`, where no logger is registered: an "info"
message to `valid` leaves no trace, a "critical" one reaches the new logger `error`. -/
theorem checkedLog_unregistered_witness :
    spdlogGet world0 "valid".toList = none ∧
    checkedLog "valid".toList "info".toList "m".toList [] world0 = world0 ∧
    (checkedLog "valid".toList "critical".toList "m".toList [] world0).out
      = [Event.log "error".toList Severity.critical "m".toList] ∧
    (checkedLog "valid".toList "critical".toList "m".toList [] world0).loggers
      = [⟨"error".toList, "Error: %v - aborting".toList, ["stderr".toList]⟩] :=
  ⟨rfl,
   (checkedLog_unregistered "valid".toList "info".toList "m".toList [] world0 rfl).1 (by decide),
   by rw [(checkedLog_unregistered "valid".toList "critical".toList "m".toList [] world0 rfl).2 rfl]
      rfl,
   by rw [(checkedLog_unregistered "valid".toList "critical".toList "m".toList [] world0 rfl).2 rfl]
      rfl⟩

/-! ## The stream constructors over a path -/

/-- The constructor from a path on a path that does not exist. -/
theorem InputFileStream.ofPath_missing (file : Str) (w : World)
    (h : pathExists w (c_str file) = false) :
    InputFileStream.ofPath file w = Run.aborted
      (afterAbort ⟨"InputFileStream::InputFileStream(const string&)".toList, fileStreamH, 130⟩
        ("File '".toList ++ file ++ "' does not exist".toList) w) := by
  unfold InputFileStream.ofPath
  simp only [h, if_true, ABORT_eq, fmt_does_not_exist]

/-- The constructor from a path on a path that exists. -/
theorem InputFileStream.ofPath_present (file : Str) (w : World)
    (h : pathExists w (c_str file) = true) :
    InputFileStream.ofPath file w = Run.done
      ⟨file, ifstreamOpen (c_str file) w, -1,
        (if extension file = ".gz".toList then [Stage.gzipDecompressor] else [])
          ++ [Stage.ifstream], [], []⟩ w := by
  unfold InputFileStream.ofPath
  simp only [h, Bool.true_eq_false, if_false]

/-- Claim C2: constructing an `InputFileStream` from a path aborts if and only if the path
does not exist. When it aborts, what is emitted before termination is exactly one critical
message, "File '<path>' does not exist" (which contains the path), followed by the call
stack and the "Aborted from" line. When the path exists the constructor returns, nothing is
emitted and the environment, file system included, is the one it started in. -/
theorem InputFileStream_ofPath_abort_iff (file : Str) (w : World) :
    ((InputFileStream.ofPath file w).isAborted = true ↔ pathExists w (c_str file) = false) ∧
    (pathExists w (c_str file) = false →
      InputFileStream.ofPath file w = Run.aborted
        (afterAbort ⟨"InputFileStream::InputFileStream(const string&)".toList, fileStreamH, 130⟩
          ("File '".toList ++ file ++ "' does not exist".toList) w) ∧
      file <:+: "File '".toList ++ file ++ "' does not exist".toList) ∧
    (pathExists w (c_str file) = true → ∃ s, InputFileStream.ofPath file w = Run.done s w) := by
  refine ⟨?_, fun h => ⟨InputFileStream.ofPath_missing file w h, ?_⟩,
    fun h => ⟨_, InputFileStream.ofPath_present file w h⟩⟩
  · cases h : pathExists w (c_str file) with
    | false => simp [InputFileStream.ofPath_missing file w h, Run.isAborted]
    | true => simp [InputFileStream.ofPath_present file w h, Run.isAborted]
  · exact ⟨"File '".toList, "' does not exist".toList, rfl⟩

/-- Opening an `ofstream` on a path that exists leaves it in existence. -/
theorem ofstreamOpen_exists (path : Str) (w : World) (h : pathExists w path = true) :
    pathExists (ofstreamOpen path w).2 path = true := by
  unfold pathExists at h ⊢
  unfold ofstreamOpen
  cases he : w.entries path with
  | none => simp [he] at h
  | some e =>
    cases e with
    | dir b => simpa using h
    | file i => simpa using h

/-- Opening an `ofstream` on a missing path in a writable directory creates the file. -/
theorem ofstreamOpen_creates (path : Str) (w : World) (h : w.entries path = none)
    (hne : path ≠ []) (hlast : path.getLast? ≠ some '/')
    (hdir : w.entries (dirname path) = some (Entry.dir true)) :
    pathExists (ofstreamOpen path w).2 path = true ∧ (ofstreamOpen path w).2.out = w.out := by
  unfold pathExists ofstreamOpen
  simp [h, hne, hlast, hdir]

/-- The output constructor from a path, when the path exists once `ofstream_` is open. -/
theorem OutputFileStream.ofPath_opened (file : Str) (w : World)
    (h : pathExists (ofstreamOpen (c_str file) w).2 (c_str file) = true) :
    OutputFileStream.ofPath file w = Run.done
      ⟨file, (ofstreamOpen (c_str file) w).1, -1,
        (if extension file = ".gz".toList then [Stage.gzipCompressor] else [])
          ++ [Stage.ofstream], [], []⟩ (ofstreamOpen (c_str file) w).2 := by
  unfold OutputFileStream.ofPath
  simp only [h, Bool.true_eq_false, if_false]

/-- On every path that does not exist but could be created (a name in an existing, writable
directory), the output constructor returns instead of aborting, emits nothing, and the
file exists afterwards. -/
theorem OutputFileStream.ofPath_creates (file : Str) (w : World)
    (h : pathExists w (c_str file) = false)
    (hne : c_str file ≠ []) (hlast : (c_str file).getLast? ≠ some '/')
    (hdir : w.entries (dirname (c_str file)) = some (Entry.dir true)) :
    ∃ s w1, OutputFileStream.ofPath file w = Run.done s w1 ∧
      pathExists w1 (c_str file) = true ∧ w1.out = w.out := by
  have hnone : w.entries (c_str file) = none := by
    unfold pathExists at h
    simpa using h
  have hc := ofstreamOpen_creates (c_str file) w hnone hne hlast hdir
  exact ⟨_, _, OutputFileStream.ofPath_opened file w hc.1, hc.1, hc.2⟩

/-- Claim C1 as stated fails: `/tmp/new.txt` does not exist in `world0` and its directory
exists and is writable; the constructor of `OutputFileStream` does not abort, emits no
diagnostic, and the file exists afterwards, because the member `ofstream_` is opened, which
creates the file, before the body of the constructor checks that the path exists. -/
theorem OutputFileStream_ofPath_creates_new_file :
    pathExists world0 "/tmp/new.txt".toList = false ∧
    world0.entries (dirname "/tmp/new.txt".toList) = some (Entry.dir true) ∧
    ∃ s w1, OutputFileStream.ofPath "/tmp/new.txt".toList world0 = Run.done s w1 ∧
      pathExists w1 "/tmp/new.txt".toList = true ∧ w1.out = [] :=
  ⟨by decide, by decide, _, _, rfl, by decide, rfl⟩

/-- Claim C1, amended: for a path that does not exist, the constructor of `OutputFileStream`
aborts with the diagnostic "File '<path>' does not exist", the path still not existing
afterwards, exactly when opening the path for writing cannot create it (the path is empty
or ends in a separator, or its directory is missing or not writable); when the file can be
created, the constructor creates it, emits nothing and returns. -/
theorem OutputFileStream_ofPath_missing (file : Str) (w : World)
    (h : pathExists w (c_str file) = false) :
    ((c_str file ≠ [] ∧ (c_str file).getLast? ≠ some '/' ∧
        w.entries (dirname (c_str file)) = some (Entry.dir true)) →
      ∃ s w1, OutputFileStream.ofPath file w = Run.done s w1 ∧
        pathExists w1 (c_str file) = true ∧ w1.out = w.out) ∧
    (¬ (c_str file ≠ [] ∧ (c_str file).getLast? ≠ some '/' ∧
        w.entries (dirname (c_str file)) = some (Entry.dir true)) →
      OutputFileStream.ofPath file w = Run.aborted
        (afterAbort
          ⟨"OutputFileStream::OutputFileStream(const string&)".toList, fileStreamH, 176⟩
          ("File '".toList ++ file ++ "' does not exist".toList) w) ∧
      pathExists (afterAbort
          ⟨"OutputFileStream::OutputFileStream(const string&)".toList, fileStreamH, 176⟩
          ("File '".toList ++ file ++ "' does not exist".toList) w) (c_str file) = false) := by
  refine ⟨fun hc => OutputFileStream.ofPath_creates file w h hc.1 hc.2.1 hc.2.2, ?_⟩
  intro hc
  have hnone : w.entries (c_str file) = none := by
    unfold pathExists at h
    simpa using h
  have hopen : ofstreamOpen (c_str file) w = (none, w) := by
    unfold ofstreamOpen
    simp only [hnone, if_neg hc]
  refine ⟨?_, ?_⟩
  · unfold OutputFileStream.ofPath
    simp only [hopen, h, if_true, ABORT_eq, fmt_does_not_exist]
  · simpa [afterAbort, pathExists] using hnone

/-- Witness for the amended C1 in `world0`: `/ro/new.txt`, in a read-only directory, makes
the constructor abort; `/tmp/new.txt` is created. -/
theorem OutputFileStream_ofPath_missing_witness :
    pathExists world0 (c_str "/ro/new.txt".toList) = false ∧
    (OutputFileStream.ofPath "/ro/new.txt".toList world0).isAborted = true ∧
    pathExists world0 (c_str "/tmp/new.txt".toList) = false ∧
    (OutputFileStream.ofPath "/tmp/new.txt".toList world0).isAborted = false := by
  refine ⟨by decide, ?_, by decide, ?_⟩
  · rw [((OutputFileStream_ofPath_missing "/ro/new.txt".toList world0 (by decide)).2
      (by decide)).1]
    rfl
  · obtain ⟨s, w1, hrun, _, _⟩ :=
      (OutputFileStream_ofPath_missing "/tmp/new.txt".toList world0 (by decide)).1
        (by decide)
    rw [hrun]
    rfl

/-- The last component of a path that ends in `.gz` ends in `.gz`. -/
theorem filename_gz (q : Str) : ∃ x, filename (q ++ ".gz".toList) = x ++ ".gz".toList := by
  have hlast : (q ++ ".gz".toList).getLast? = some 'z' := by
    simp [List.getLast?_append]
  have htw : ((q ++ ".gz".toList).reverse.takeWhile (fun c => c != '/')).reverse
      = (q.reverse.takeWhile (fun c => c != '/')).reverse ++ ".gz".toList := by
    simp [List.takeWhile]
  unfold filename
  rw [hlast]
  simp only [Option.some.injEq, show ('z' = '/') = False by decide, if_false]
  split
  · split
    · exact ⟨_, htw⟩
    · exact ⟨q, rfl⟩
  · exact ⟨_, htw⟩

/-- A path that ends in `.gz` has the extension `.gz`. -/
theorem extension_gz (q : Str) : extension (q ++ ".gz".toList) = ".gz".toList := by
  obtain ⟨x, hx⟩ := filename_gz q
  unfold extension
  simp only [hx]
  have h1 : x ++ ".gz".toList ≠ ['.'] := by
    intro h
    have := congrArg List.length h
    simp at this
  have h2 : x ++ ".gz".toList ≠ ['.', '.'] := by
    intro h
    have := congrArg List.length h
    simp at this
  rw [if_neg (not_or.mpr ⟨h1, h2⟩)]
  simp [List.takeWhile]

/-- Claim C7: on an existing path both constructors return, and both choose the stages from
the path alone, whatever the files hold: the chain is the gzip stage followed by the file
exactly when the extension of the path equals ".gz", compared character by character, and
the file alone otherwise; so a path that ends in ".gz" is read and written through gzip. -/
theorem stream_ofPath_compression (file : Str) (w : World)
    (h : pathExists w (c_str file) = true) :
    ∃ si so wo, InputFileStream.ofPath file w = Run.done si w ∧
      OutputFileStream.ofPath file w = Run.done so wo ∧
      si.istream_ = (if extension file = ".gz".toList
        then [Stage.gzipDecompressor, Stage.ifstream] else [Stage.ifstream]) ∧
      so.ostream_ = (if extension file = ".gz".toList
        then [Stage.gzipCompressor, Stage.ofstream] else [Stage.ofstream]) ∧
      (".gz".toList <:+ file →
        si.istream_ = [Stage.gzipDecompressor, Stage.ifstream] ∧
        so.ostream_ = [Stage.gzipCompressor, Stage.ofstream]) := by
  refine ⟨_, _, _, InputFileStream.ofPath_present file w h,
    OutputFileStream.ofPath_opened file w (ofstreamOpen_exists _ w h), ?_, ?_, ?_⟩
  · by_cases hx : extension file = ".gz".toList
    · simp only [if_pos hx]; rfl
    · simp only [if_neg hx]; rfl
  · by_cases hx : extension file = ".gz".toList
    · simp only [if_pos hx]; rfl
    · simp only [if_neg hx]; rfl
  · rintro ⟨q, rfl⟩
    simp only [extension_gz q, if_true]
    exact ⟨rfl, rfl⟩

/-- Witness for C7: the existing path `/tmp/data.gz` gets the gzip stage on both sides. -/
theorem stream_ofPath_compression_witness :
    pathExists world0 (c_str "/tmp/data.gz".toList) = true ∧
    ∃ si so wo, InputFileStream.ofPath "/tmp/data.gz".toList world0 = Run.done si world0 ∧
      OutputFileStream.ofPath "/tmp/data.gz".toList world0 = Run.done so wo ∧
      si.istream_ = [Stage.gzipDecompressor, Stage.ifstream] ∧
      so.ostream_ = [Stage.gzipCompressor, Stage.ofstream] := by
  refine ⟨by decide, ?_⟩
  obtain ⟨si, so, wo, h1, h2, _, _, h5⟩ :=
    stream_ofPath_compression "/tmp/data.gz".toList world0 (by decide)
  exact ⟨si, so, wo, h1, h2, (h5 ⟨"/tmp/data".toList, rfl⟩).1, (h5 ⟨"/tmp/data".toList, rfl⟩).2⟩

/-! ## `TemporaryFile`: construction and destruction -/

/-- A C string holds no NUL. -/
theorem c_str_no_NUL (s : Str) : ∀ c ∈ c_str s, c ≠ NUL := by
  intro c hc
  have := List.mem_takeWhile_imp hc
  simpa using this

/-- What follows the C string in its buffer is nothing or starts with NUL. -/
theorem drop_c_str (s : Str) :
    s.drop (c_str s).length = [] ∨ ∃ rest, s.drop (c_str s).length = NUL :: rest := by
  unfold c_str
  induction s with
  | nil => simp
  | cons c cs ih =>
    by_cases hc : c = NUL
    · right
      refine ⟨cs, ?_⟩
      rw [List.takeWhile_cons_of_neg (by simp [hc])]
      simp [hc]
    · rw [List.takeWhile_cons_of_pos (by simp [hc])]
      simpa using ih

/-- The C string of a buffer that starts with NUL-free text followed by nothing or a NUL. -/
theorem c_str_append (a rest : Str) (ha : ∀ c ∈ a, c ≠ NUL)
    (hr : rest = [] ∨ ∃ r, rest = NUL :: r) : c_str (a ++ rest) = a := by
  unfold c_str
  rw [List.takeWhile_append_of_pos (by simpa using ha)]
  rcases hr with rfl | ⟨r, rfl⟩ <;> simp [List.takeWhile]

/-- The two ways `mkstemp` ends: failure, with nothing created, or a new file whose name
is six alphanumeric characters after the stem of the template and did not exist. -/
theorem mkstemp_cases (pick : Pick) (tmpl : Str) (w : World) :
    mkstemp pick tmpl w
      = ((-1, tmpl), { w with calls := w.calls ++ [Call.mkstemp tmpl (-1)] }) ∨
    ∃ six, six.length = 6 ∧ six.all Char.isAlphanum = true ∧
      w.entries (tmpl.take (tmpl.length - 6) ++ six) = none ∧
      mkstemp pick tmpl w = (((w.nextFd : Int), tmpl.take (tmpl.length - 6) ++ six),
        w.create (tmpl.take (tmpl.length - 6) ++ six)) := by
  unfold mkstemp
  simp only
  split
  · split
    · split
      · rename_i six _
        split
        · rename_i h
          exact Or.inr ⟨six, h.1, h.2.1, h.2.2, rfl⟩
        · exact Or.inl rfl
      · exact Or.inl rfl
    · exact Or.inl rfl
  · exact Or.inl rfl

/-- Unlinking a file that was just created succeeds. -/
theorem unlink_create (w : World) (n : Str) :
    unlink n (w.create n) = (0, (w.create n).remove n) := by
  simp [unlink, World.create]

/-- The two ways the constructor of `TemporaryFile` ends. Either `mkstemp` failed and the
process aborted with the message that names the normalised base; or a file with a name
that did not exist was created, `fd_` is the new descriptor, `name_` is the buffer with
the six characters filled in, and the file was unlinked at once if that was asked for. -/
theorem TemporaryFile.construct_cases (pick : Pick) (base : Str) (early : Bool) (w : World) :
    ((mkstemp pick (c_str (tmplBuffer w base)) w).1.1 = -1 ∧
      TemporaryFile.construct pick base early w = Run.aborted
        (afterAbort ⟨"int TemporaryFile::MakeTemp(const string&)".toList, fileStreamH, 63⟩
          ("Error while making a temporary based on '".toList
            ++ TemporaryFile.NormalizeTempPrefix w base ++ "'".toList)
          { w with calls := w.calls ++ [Call.mkstemp (c_str (tmplBuffer w base)) (-1)] })) ∨
    ∃ six, six.length = 6 ∧
      w.entries (tmplStem (tmplBuffer w base) ++ six) = none ∧
      c_str (tmplStem (tmplBuffer w base) ++ six
          ++ (tmplBuffer w base).drop (c_str (tmplBuffer w base)).length)
        = tmplStem (tmplBuffer w base) ++ six ∧
      TemporaryFile.construct pick base early w = Run.done
        ⟨(w.nextFd : Int), early, tmplStem (tmplBuffer w base) ++ six
          ++ (tmplBuffer w base).drop (c_str (tmplBuffer w base)).length⟩
        (if early = true then (w.create (tmplStem (tmplBuffer w base) ++ six)).remove
            (tmplStem (tmplBuffer w base) ++ six)
          else w.create (tmplStem (tmplBuffer w base) ++ six)) := by
  rcases mkstemp_cases pick (c_str (tmplBuffer w base)) w with h | ⟨six, h6, hal, hfree, h⟩
  · left
    refine ⟨by rw [h], ?_⟩
    unfold TemporaryFile.construct TemporaryFile.MakeTemp TemporaryFile.mkstemp_and_unlink
    simp only [← tmplBuffer.eq_1 w base, h, ne_eq, not_true_eq_false, and_false, if_false,
      if_true, ABORT_eq, fmt_making]
  · right
    have hc : c_str (tmplStem (tmplBuffer w base) ++ six
          ++ (tmplBuffer w base).drop (c_str (tmplBuffer w base)).length)
        = tmplStem (tmplBuffer w base) ++ six := by
      apply c_str_append _ _ _ (drop_c_str _)
      intro c hc
      rcases List.mem_append.mp hc with h1 | h2
      · exact c_str_no_NUL _ c (List.mem_of_mem_take h1)
      · intro hn
        have := List.all_eq_true.mp hal c h2
        rw [hn] at this
        exact absurd this (by decide)
    refine ⟨six, h6, hfree, hc, ?_⟩
    have hfd : ¬ ((-1 : Int) = (w.nextFd : Int)) := by omega
    have hfd2 : ¬ ((w.nextFd : Int) = -1) := by omega
    unfold TemporaryFile.construct TemporaryFile.MakeTemp TemporaryFile.mkstemp_and_unlink
    unfold tmplStem at hc ⊢
    cases early with
    | true =>
      simp only [← tmplBuffer.eq_1 w base, h, hc, unlink_create, ne_eq, hfd, hfd2,
        not_false_eq_true, and_self, if_true, not_true_eq_false, if_false]
    | false =>
      simp only [← tmplBuffer.eq_1 w base, h, ne_eq, hfd, Bool.false_eq_true, false_and,
        if_false]

/-- Claim C3: whenever the construction of a `TemporaryFile` succeeds, the path of the file
exists right after it if and only if `earlyUnlink` is false; the descriptor is not `-1` and
is open in both cases; destroying the object then succeeds, after which the path does not
exist and the descriptor is closed; and from construction to destruction the system calls
made are one `mkstemp`, exactly one successful `unlink` of the path, and one `close`. -/
theorem TemporaryFile_lifecycle (pick : Pick) (base : Str) (early : Bool) (w : World)
    (t : TemporaryFile) (w1 : World)
    (h : TemporaryFile.construct pick base early w = Run.done t w1) :
    (pathExists w1 (c_str t.name_) = true ↔ early = false) ∧
    t.getFileDescriptor ≠ -1 ∧ (w1.fds t.getFileDescriptor).isSome = true ∧
    ∃ w2, t.destroy w1 = Run.done () w2 ∧
      pathExists w2 (c_str t.name_) = false ∧ w2.fds t.getFileDescriptor = none ∧
      w2.calls = w.calls ++ [Call.mkstemp (c_str t.name_) t.getFileDescriptor,
        Call.unlink (c_str t.name_) 0, Call.close t.getFileDescriptor 0] := by
  rcases TemporaryFile.construct_cases pick base early w with ⟨_, ha⟩ | ⟨six, _, _, hc, hd⟩
  · rw [ha] at h
    exact absurd h (by simp)
  · rw [hd] at h
    injection h with ht hw
    subst ht hw
    have hfd : ¬ ((w.nextFd : Int) = -1) := by omega
    generalize tmplStem (tmplBuffer w base) ++ six
      ++ (tmplBuffer w base).drop (c_str (tmplBuffer w base)).length = name at hc
    generalize tmplStem (tmplBuffer w base) ++ six = n at hc
    cases early with
    | true =>
      simp [TemporaryFile.getFileDescriptor, TemporaryFile.destroy, close, World.create,
        World.remove, pathExists, hc, hfd]
    | false =>
      simp [TemporaryFile.getFileDescriptor, TemporaryFile.destroy, unlink, close,
        World.create, World.remove, pathExists, hc, hfd]

/-- Witness for C3: a kept temporary file in `/tmp` of `world0`. -/
theorem TemporaryFile_lifecycle_witness :
    TemporaryFile.construct pickFirst "/tmp".toList false world0
      = Run.done ⟨3, false, "/tmp/marian.aaaaaa".toList ++ [NUL]⟩
          (world0.create "/tmp/marian.aaaaaa".toList) ∧
    pathExists (world0.create "/tmp/marian.aaaaaa".toList) "/tmp/marian.aaaaaa".toList = true ∧
    ∃ w2, TemporaryFile.destroy ⟨3, false, "/tmp/marian.aaaaaa".toList ++ [NUL]⟩
        (world0.create "/tmp/marian.aaaaaa".toList) = Run.done () w2 ∧
      pathExists w2 "/tmp/marian.aaaaaa".toList = false ∧ w2.fds 3 = none := by
  have hrun : TemporaryFile.construct pickFirst "/tmp".toList false world0
      = Run.done ⟨3, false, "/tmp/marian.aaaaaa".toList ++ [NUL]⟩
          (world0.create "/tmp/marian.aaaaaa".toList) := by
    unfold TemporaryFile.construct
    rfl
  have hname : c_str ("/tmp/marian.aaaaaa".toList ++ [NUL]) = "/tmp/marian.aaaaaa".toList := by
    decide
  obtain ⟨h1, _, _, w2, h4, h5, h6, _⟩ :=
    TemporaryFile_lifecycle pickFirst "/tmp".toList false world0 _ _ hrun
  simp only [hname] at h1 h5
  exact ⟨hrun, h1.mpr trivial, w2, h4, h5, h6⟩

/-- Claim C4 as stated fails: the platform `pickFirst` only ever proposes a name that does
not exist at the moment of creation, yet two temporary files created one after the other in
`/tmp/` with `earlyUnlink = true` are both alive (two different open descriptors) and have
the same `getFileName()`, because the first name was unlinked before the second creation. -/
theorem TemporaryFile_same_name_twice :
    ∃ t1 w1 t2 w2,
      TemporaryFile.construct pickFirst "/tmp/".toList true world0 = Run.done t1 w1 ∧
      TemporaryFile.construct pickFirst "/tmp/".toList true w1 = Run.done t2 w2 ∧
      (w2.fds t1.getFileDescriptor).isSome = true ∧
      (w2.fds t2.getFileDescriptor).isSome = true ∧
      t1.getFileDescriptor ≠ t2.getFileDescriptor ∧
      t1.getFileName = t2.getFileName := by
  refine ⟨_, _, _, _, rfl, rfl, ?_, ?_, ?_, ?_⟩ <;> decide

/-- Claim C4, amended: when the first of two temporary files was created with
`earlyUnlink = false` and the second is created in the same base directory while the first
has not been destroyed, their `getFileName()` results differ, for either value of
`earlyUnlink` of the second and whatever names the platform proposes. -/
theorem TemporaryFile_names_differ (pick : Pick) (base : Str) (early2 : Bool) (w : World)
    (t1 : TemporaryFile) (w1 : World) (t2 : TemporaryFile) (w2 : World)
    (h1 : TemporaryFile.construct pick base false w = Run.done t1 w1)
    (h2 : TemporaryFile.construct pick base early2 w1 = Run.done t2 w2) :
    t1.getFileName ≠ t2.getFileName := by
  rcases TemporaryFile.construct_cases pick base false w with ⟨_, ha⟩ | ⟨six1, _, _, hc1, hd1⟩
  · rw [ha] at h1
    exact absurd h1 (by simp)
  rcases TemporaryFile.construct_cases pick base early2 w1 with
    ⟨_, ha⟩ | ⟨six2, _, hfree2, hc2, hd2⟩
  · rw [ha] at h2
    exact absurd h2 (by simp)
  rw [hd1] at h1
  rw [hd2] at h2
  injection h1 with ht1 hw1
  injection h2 with ht2 hw2
  subst ht1 ht2
  intro heq
  simp only [TemporaryFile.getFileName] at heq
  have hn : tmplStem (tmplBuffer w base) ++ six1 = tmplStem (tmplBuffer w1 base) ++ six2 := by
    rw [← hc1, ← hc2, heq]
  rw [← hn, ← hw1] at hfree2
  simp [World.create] at hfree2

/-- Witness for the amended C4: two kept temporary files in `/tmp/` of `world0`. -/
theorem TemporaryFile_names_differ_witness :
    ∃ t1 w1 t2 w2,
      TemporaryFile.construct pickFirst "/tmp/".toList false world0 = Run.done t1 w1 ∧
      TemporaryFile.construct pickFirst "/tmp/".toList true w1 = Run.done t2 w2 ∧
      t1.getFileName ≠ t2.getFileName :=
  ⟨_, _, _, _, rfl, rfl,
    TemporaryFile_names_differ pickFirst "/tmp/".toList true world0 _ _ _ _ rfl rfl⟩

/-- Normalising a base without NUL gives a base without NUL. -/
theorem NormalizeTempPrefix_no_NUL (w : World) (base : Str) (h : ∀ c ∈ base, c ≠ NUL) :
    ∀ c ∈ TemporaryFile.NormalizeTempPrefix w base, c ≠ NUL := by
  unfold TemporaryFile.NormalizeTempPrefix
  have hsep : ∀ c ∈ base ++ ['/'], c ≠ NUL := by
    intro c hc
    rcases List.mem_append.mp hc with h1 | h2
    · exact h c h1
    · simp only [List.mem_singleton] at h2
      rw [h2]
      decide
  split
  · exact h
  · split
    · exact h
    · split
      · exact h
      · split
        · exact hsep
        · exact h

/-- The C string of the template buffer of a base without NUL. -/
theorem c_str_tmplBuffer (w : World) (base : Str) (h : ∀ c ∈ base, c ≠ NUL) :
    c_str (tmplBuffer w base)
      = TemporaryFile.NormalizeTempPrefix w base ++ "marian.XXXXXX".toList := by
  unfold tmplBuffer
  apply c_str_append _ _ _ (Or.inr ⟨[], rfl⟩)
  intro c hc
  rcases List.mem_append.mp hc with h1 | h2
  · exact NormalizeTempPrefix_no_NUL w base h c h1
  · intro hn
    rw [hn] at h2
    exact absurd h2 (by decide)

/-- On a base without NUL, whenever the construction succeeds, `getFileName()` is the
normalised base, then `marian.`, then six characters, and then one more character: the NUL
that `MakeTemp` pushed onto the template before the call of `mkstemp`. -/
theorem TemporaryFile.getFileName_eq (pick : Pick) (base : Str) (early : Bool) (w : World)
    (t : TemporaryFile) (w1 : World) (hb : ∀ c ∈ base, c ≠ NUL)
    (h : TemporaryFile.construct pick base early w = Run.done t w1) :
    ∃ six, six.length = 6 ∧
      t.getFileName = TemporaryFile.NormalizeTempPrefix w base ++ "marian.".toList ++ six
        ++ [NUL] ∧
      t.getFileName.length = (TemporaryFile.NormalizeTempPrefix w base).length + 14 := by
  rcases TemporaryFile.construct_cases pick base early w with ⟨_, ha⟩ | ⟨six, h6, _, _, hd⟩
  · rw [ha] at h
    exact absurd h (by simp)
  · rw [hd] at h
    injection h with ht hw
    subst ht
    have hstem : tmplStem (tmplBuffer w base)
        = TemporaryFile.NormalizeTempPrefix w base ++ "marian.".toList := by
      unfold tmplStem
      rw [c_str_tmplBuffer w base hb]
      have : "marian.XXXXXX".toList = "marian.".toList ++ "XXXXXX".toList := by decide
      rw [this, ← List.append_assoc]
      have hl : ((TemporaryFile.NormalizeTempPrefix w base ++ "marian.".toList)
          ++ "XXXXXX".toList).length - 6
          = (TemporaryFile.NormalizeTempPrefix w base ++ "marian.".toList).length := by
        simp
      rw [hl, List.take_left]
    have htail : (tmplBuffer w base).drop (c_str (tmplBuffer w base)).length = [NUL] := by
      rw [c_str_tmplBuffer w base hb]
      unfold tmplBuffer
      rw [List.drop_left]
    refine ⟨six, h6, ?_, ?_⟩
    · simp only [TemporaryFile.getFileName, hstem, htail]
    · simp only [TemporaryFile.getFileName, hstem, htail]
      simp [h6]

/-- Claim C8, the code at a failing input: for the base `/tmp` in `world0` the construction
succeeds and `getFileName()` is `/tmp/marian.aaaaaa` followed by a NUL character, so
something does come after the six characters and its length is that of the normalised base
`/tmp/` plus 14, not plus 13. -/
theorem TemporaryFile_getFileName_trailing_NUL :
    ∃ t w1, TemporaryFile.construct pickFirst "/tmp".toList false world0 = Run.done t w1 ∧
      TemporaryFile.NormalizeTempPrefix world0 "/tmp".toList = "/tmp/".toList ∧
      t.getFileName = "/tmp/marian.aaaaaa".toList ++ [NUL] ∧
      t.getFileName ≠ "/tmp/".toList ++ "marian.".toList ++ "aaaaaa".toList ∧
      t.getFileName.length = "/tmp/".toList.length + 14 := by
  refine ⟨_, _, rfl, ?_, ?_, ?_, ?_⟩ <;> decide

/-! ## `InputFileStream::empty` -/

/-- For a stream built from an existing path without the extension `.gz`, `empty()` before
any read is true exactly when a read of one byte delivers nothing. -/
theorem InputFileStream.empty_ofPath_plain (file : Str) (w : World)
    (h : pathExists w (c_str file) = true) (hx : extension file ≠ ".gz".toList) :
    ∃ s, InputFileStream.ofPath file w = Run.done s w ∧
      (s.empty w = true ↔ ∃ s1 w1, s.readBytes 1 w = some ([], s1, w1)) := by
  refine ⟨_, InputFileStream.ofPath_present file w h, ?_⟩
  simp only [if_neg hx, List.nil_append]
  unfold InputFileStream.empty InputFileStream.readBytes InputFileStream.sbumpc
    InputFileStream.deviceRead ifstreamPeek ifstreamOpen
  have hsz : max (chainBufferSize [Stage.ifstream]) 1 = 4096 := by decide
  simp only [hsz]
  cases he : w.entries (c_str file) with
  | none => simp [InputFileStream.readBytes]
  | some e =>
    cases e with
    | dir b => simp [InputFileStream.readBytes]
    | file i =>
      cases hcont : w.inodes i with
      | nil => simp [InputFileStream.readBytes, hcont]
      | cons c cs => simp [InputFileStream.readBytes, hcont]

/-- Claim C5, the code at a failing input: an `InputFileStream` built over a temporary file
that holds `hello` answers `empty() = true` before any read, although a read of five bytes
then delivers `hello`; the same happens for a stream built over an external stream that
holds `hello`. The member `ifstream_` that `empty()` peeks is open only in a stream built
from a path. -/
theorem InputFileStream_empty_on_nonempty :
    (∃ t w inp w1 inp2 w2, helloTemp = some (t, w) ∧
      InputFileStream.ofTemp t w = Run.done inp w1 ∧
      inp.empty w1 = true ∧
      inp.read 1 5 w1 = some ((5, "hello".toList), inp2, w2)) ∧
    (∃ inp w1 inp2 w2, InputFileStream.ofStream "hello".toList world0 = Run.done inp w1 ∧
      inp.empty w1 = true ∧
      inp.read 1 5 w1 = some ((5, "hello".toList), inp2, w2)) := by
  refine ⟨⟨_, _, _, _, _, _, rfl, rfl, ?_, rfl⟩, ⟨_, _, _, _, rfl, ?_, rfl⟩⟩ <;> decide

/-! ## Writing and reading back through a temporary file -/

/-- Claim C6 as stated fails: in the scenario of the specification, with no flush between
the write and the read, the five bytes `hello` are still in the buffer of the output
stream when the input stream reads, and the read delivers nothing. -/
theorem writeThenRead_unflushed_hello :
    ∃ t w, TemporaryFile.construct pickFirst "/tmp/".toList true world0 = Run.done t w ∧
      writeThenRead false t "hello".toList w = some [] ∧
      writeThenRead false t "hello".toList w ≠ some "hello".toList := by
  refine ⟨_, _, rfl, ?_, ?_⟩ <;> decide

/-- Writing right behind the part `d` of a file that was written so far extends it. -/
theorem writeAt_append (d old data : Str) :
    writeAt (d ++ old.drop d.length) d.length data
      = (d ++ data) ++ old.drop (d ++ data).length := by
  unfold writeAt
  simp [List.take_left, List.drop_append, List.drop_drop, Nat.add_comm]

/-- One byte into an output stream over an open descriptor: what the file holds up to the
offset, followed by the buffer, grows by that byte. -/
theorem OutputFileStream.sputc_fd (s : OutputFileStream) (c : Char) (w : World) (ino : Nat)
    (d old : Str) (hch : s.ostream_ = [Stage.fds 1024])
    (hfd : w.fds s.fds_ = some ⟨ino, d.length⟩)
    (hino : w.inodes ino = d ++ old.drop d.length) :
    ∃ s1 w1 d1, s.sputc c w = some (s1, w1) ∧ s1.ostream_ = [Stage.fds 1024] ∧
      s1.fds_ = s.fds_ ∧ w1.fds s.fds_ = some ⟨ino, d1.length⟩ ∧
      w1.inodes ino = d1 ++ old.drop d1.length ∧ d1 ++ s1.buffer = d ++ s.buffer ++ [c] := by
  unfold OutputFileStream.sputc
  have hsz : chainBufferSize s.ostream_ = 1024 := by
    rw [hch]
    rfl
  rw [hsz]
  simp only [show (1024 : Nat) ≠ 0 by decide, if_false]
  by_cases hlt : s.buffer.length < 1024
  · simp only [hlt, if_true, hch]
    exact ⟨_, _, d, rfl, rfl, rfl, hfd, hino, by simp⟩
  · simp only [hlt, if_false]
    unfold OutputFileStream.flush OutputFileStream.deviceWrite
    simp only [hch, hfd]
    refine ⟨_, _, d ++ s.buffer, rfl, rfl, rfl, ?_, ?_, by simp⟩
    · simp
    · simp only [if_true, hino]
      exact writeAt_append d old s.buffer

/-- Writing bytes through an output stream over an open descriptor. -/
theorem OutputFileStream.writeBytes_fd (cs : Str) (s : OutputFileStream) (w : World)
    (ino : Nat) (d old : Str) (hch : s.ostream_ = [Stage.fds 1024])
    (hfd : w.fds s.fds_ = some ⟨ino, d.length⟩)
    (hino : w.inodes ino = d ++ old.drop d.length) :
    ∃ s1 w1 d1, OutputFileStream.writeBytes cs s w = some (s1, w1) ∧
      s1.ostream_ = [Stage.fds 1024] ∧ s1.fds_ = s.fds_ ∧
      w1.fds s.fds_ = some ⟨ino, d1.length⟩ ∧
      w1.inodes ino = d1 ++ old.drop d1.length ∧ d1 ++ s1.buffer = d ++ s.buffer ++ cs := by
  induction cs generalizing s w d with
  | nil => exact ⟨s, w, d, rfl, hch, rfl, hfd, hino, by simp⟩
  | cons c cs ih =>
    obtain ⟨s1, w1, d1, h1, hch1, hfds1, hfd1, hino1, hb1⟩ :=
      OutputFileStream.sputc_fd s c w ino d old hch hfd hino
    rw [← hfds1] at hfd1
    obtain ⟨s2, w2, d2, h2, hch2, hfds2, hfd2, hino2, hb2⟩ := ih s1 w1 d1 hch1 hfd1 hino1
    refine ⟨s2, w2, d2, ?_, hch2, hfds2.trans hfds1, ?_, hino2, ?_⟩
    · simp only [OutputFileStream.writeBytes, h1, h2]
    · rw [← hfds1]
      exact hfd2
    · rw [hb2, hb1]
      simp

/-- Flushing an output stream over an open descriptor: the file then holds, up to the
offset, everything that was written. -/
theorem OutputFileStream.flush_fd (s : OutputFileStream) (w : World) (ino : Nat)
    (d old : Str) (hch : s.ostream_ = [Stage.fds 1024])
    (hfd : w.fds s.fds_ = some ⟨ino, d.length⟩)
    (hino : w.inodes ino = d ++ old.drop d.length) :
    ∃ s1 w1, s.flush w = some (s1, w1) ∧
      w1.fds s.fds_ = some ⟨ino, (d ++ s.buffer).length⟩ ∧
      w1.inodes ino = (d ++ s.buffer) ++ old.drop (d ++ s.buffer).length := by
  unfold OutputFileStream.flush OutputFileStream.deviceWrite
  simp only [hch, hfd]
  refine ⟨_, _, rfl, ?_, ?_⟩
  · simp
  · simp only [if_true, hino]
    exact writeAt_append d old s.buffer

/-- The next byte of an input stream over an open descriptor is the first of the buffered
bytes followed by the rest of the file, and end-of-file when there is none. -/
theorem InputFileStream.sbumpc_fd (s : InputFileStream) (w : World) (ino off : Nat)
    (hch : s.istream_ = [Stage.fds 1024]) (hfd : w.fds s.fds_ = some ⟨ino, off⟩) :
    (s.buffer ++ (w.inodes ino).drop off = [] ∧ ∃ s1 w1, s.sbumpc w = some (none, s1, w1)) ∨
    ∃ c s1 w1 off1, s.sbumpc w = some (some c, s1, w1) ∧
      s1.istream_ = [Stage.fds 1024] ∧ s1.fds_ = s.fds_ ∧
      w1.fds s.fds_ = some ⟨ino, off1⟩ ∧ w1.inodes ino = w.inodes ino ∧
      s.buffer ++ (w.inodes ino).drop off = c :: (s1.buffer ++ (w.inodes ino).drop off1) := by
  unfold InputFileStream.sbumpc
  cases hb : s.buffer with
  | cons c rest =>
    right
    exact ⟨c, _, w, off, rfl, hch, rfl, hfd, rfl, by simp⟩
  | nil =>
    have hsz : max (chainBufferSize [Stage.fds 1024]) 1 = 1024 := by decide
    unfold InputFileStream.deviceRead
    simp only [hch, hfd, hsz]
    cases hchunk : ((w.inodes ino).drop off).take 1024 with
    | nil =>
      left
      refine ⟨?_, _, _, rfl⟩
      cases hd : (w.inodes ino).drop off with
      | nil => rfl
      | cons x xs =>
        rw [hd] at hchunk
        simp at hchunk
    | cons c rest =>
      right
      refine ⟨c, _, _, off + (c :: rest).length, rfl, rfl, rfl, by simp, rfl, ?_⟩
      have hsplit := List.take_append_drop 1024 ((w.inodes ino).drop off)
      rw [hchunk] at hsplit
      have hlen : (c :: rest).length = min 1024 ((w.inodes ino).drop off).length := by
        rw [← hchunk, List.length_take]
      have hdrop : (w.inodes ino).drop (off + (c :: rest).length)
          = ((w.inodes ino).drop off).drop 1024 := by
        rw [List.drop_drop, hlen]
        by_cases hle : 1024 ≤ ((w.inodes ino).drop off).length
        · rw [Nat.min_eq_left hle]
        · have hlt : ((w.inodes ino).drop off).length ≤ 1024 := by omega
          rw [Nat.min_eq_right hlt]
          have h1 : (w.inodes ino).length ≤ off + 1024 := by
            rw [List.length_drop] at hlt
            omega
          have h2 : (w.inodes ino).length ≤ off + ((w.inodes ino).drop off).length := by
            rw [List.length_drop]
            omega
          rw [List.drop_of_length_le h1, List.drop_of_length_le h2]
      simp only [List.nil_append]
      rw [hdrop]
      exact hsplit.symm

/-- Reading `n` bytes through an input stream over an open descriptor delivers the first
`n` of the buffered bytes followed by the rest of the file. -/
theorem InputFileStream.readBytes_fd (n : Nat) (s : InputFileStream) (w : World)
    (ino off : Nat) (hch : s.istream_ = [Stage.fds 1024])
    (hfd : w.fds s.fds_ = some ⟨ino, off⟩) :
    ∃ s1 w1, InputFileStream.readBytes n s w
      = some ((s.buffer ++ (w.inodes ino).drop off).take n, s1, w1) := by
  induction n generalizing s w off with
  | zero => exact ⟨s, w, by simp [InputFileStream.readBytes]⟩
  | succ n ih =>
    rcases InputFileStream.sbumpc_fd s w ino off hch hfd with
      ⟨hnil, s1, w1, h1⟩ | ⟨c, s1, w1, off1, h1, hch1, hfds1, hfd1, hino1, hsplit⟩
    · exact ⟨s1, w1, by simp [InputFileStream.readBytes, h1, hnil]⟩
    · rw [← hfds1] at hfd1
      obtain ⟨s2, w2, h2⟩ := ih s1 w1 off1 hch1 hfd1
      refine ⟨s2, w2, ?_⟩
      simp only [InputFileStream.readBytes, h1, h2, hsplit, hino1, List.take_succ_cons]

/-- Claim C6, amended: for every byte sequence `b` and every temporary file whose
descriptor is open, writing `b` through an `OutputFileStream` over it, flushing that
stream, then building an `InputFileStream` over the same temporary file and reading
`b.length` bytes delivers exactly `b`. -/
theorem writeThenRead_flushed (t : TemporaryFile) (b : Str) (w : World) (f : OpenFile)
    (hopen : w.fds t.getFileDescriptor = some f) :
    writeThenRead true t b w = some b := by
  unfold writeThenRead OutputFileStream.ofTemp OutputFileStream.write
  simp only
  have hl : (lseek t.getFileDescriptor 0 w).2.fds t.getFileDescriptor = some ⟨f.ino, 0⟩ := by
    simp [lseek, hopen]
  obtain ⟨s1, w1, d1, h1, hch1, hfds1, hfd1, hino1, hb1⟩ :=
    OutputFileStream.writeBytes_fd b
      ⟨[], none, t.getFileDescriptor, [Stage.fds 1024], [], []⟩
      (lseek t.getFileDescriptor 0 w).2 f.ino []
      ((lseek t.getFileDescriptor 0 w).2.inodes f.ino) rfl hl (by simp)
  simp only at hfds1 hfd1 hb1
  rw [← hfds1] at hfd1
  obtain ⟨s2, w2, h2, hfd2, hino2⟩ :=
    OutputFileStream.flush_fd s1 w1 f.ino d1 _ hch1 hfd1 hino1
  rw [hfds1] at hfd2
  simp only [List.nil_append] at hb1
  rw [hb1] at hfd2 hino2
  simp only [h1, h2, if_true]
  unfold InputFileStream.ofTemp InputFileStream.read
  simp only
  have hl2 : (lseek t.getFileDescriptor 0 w2).2.fds t.getFileDescriptor = some ⟨f.ino, 0⟩ := by
    simp [lseek, hfd2]
  have hi2 : (lseek t.getFileDescriptor 0 w2).2.inodes f.ino = w2.inodes f.ino := by
    simp [lseek, hfd2]
  obtain ⟨s3, w3, h3⟩ :=
    InputFileStream.readBytes_fd (b.length * 1)
      ⟨[], none, t.getFileDescriptor, [Stage.fds 1024], [], []⟩
      (lseek t.getFileDescriptor 0 w2).2 f.ino 0 rfl hl2
  rw [h3]
  simp [hi2, hino2]

/-- Witness for the amended C6: `hello` through a temporary file of `/tmp/` in `world0`. -/
theorem writeThenRead_flushed_witness :
    ∃ t w f, TemporaryFile.construct pickFirst "/tmp/".toList true world0 = Run.done t w ∧
      w.fds t.getFileDescriptor = some f ∧
      writeThenRead true t "hello".toList w = some "hello".toList :=
  ⟨_, _, _, rfl, rfl, writeThenRead_flushed _ "hello".toList _ _ rfl⟩

/-! ## Failing system calls -/

/-- Claim C9 as stated fails, twice. A temporary file is created in `/tmp/` of `world0` and
its descriptor, which `getFileDescriptor()` hands out, is closed by the caller. The
constructor of `InputFileStream` over it then makes an `lseek` that fails, and returns
normally without any message. The destructor of the temporary file then makes a `close`
that fails, and the process aborts after the line "Could not close file 3", which does not
contain the path of the file. -/
theorem failed_seek_and_close_unreported :
    ∃ t w1, TemporaryFile.construct pickFirst "/tmp/".toList true world0 = Run.done t w1 ∧
      ∃ inp w3, InputFileStream.ofTemp t (close t.getFileDescriptor w1).2 = Run.done inp w3 ∧
        Call.lseek t.getFileDescriptor (-1) ∈ w3.calls ∧ w3.out = [] ∧
        ∃ w4, t.destroy w3 = Run.aborted w4 ∧
          Call.close t.getFileDescriptor (-1) ∈ w4.calls ∧
          w4.out = [Event.cerr "Could not close file 3".toList] ∧
          c_str t.getFileName = "/tmp/marian.aaaaaa".toList ∧
          ¬ (c_str t.getFileName <:+: "Could not close file 3".toList) := by
  refine ⟨_, _, rfl, _, _, rfl, ?_, ?_, _, rfl, ?_, ?_, ?_, ?_⟩ <;> decide

/-- A failed `mkstemp` ends the constructor of `TemporaryFile` in an abort whose critical
message names the normalised base. -/
theorem TemporaryFile.construct_mkstemp_failed (pick : Pick) (base : Str) (early : Bool)
    (w : World) (h : (mkstemp pick (c_str (tmplBuffer w base)) w).1.1 = -1) :
    TemporaryFile.construct pick base early w = Run.aborted
      (afterAbort ⟨"int TemporaryFile::MakeTemp(const string&)".toList, fileStreamH, 63⟩
        ("Error while making a temporary based on '".toList
          ++ TemporaryFile.NormalizeTempPrefix w base ++ "'".toList)
        (mkstemp pick (c_str (tmplBuffer w base)) w).2) := by
  unfold TemporaryFile.construct TemporaryFile.MakeTemp TemporaryFile.mkstemp_and_unlink
  simp only [← tmplBuffer.eq_1 w base, h, ne_eq, not_true_eq_false, and_false, if_false,
    if_true, ABORT_eq, fmt_making]

/-- Claim C9, amended: in `TemporaryFile`, a failing creation of the file ends in an abort
that is preceded by a critical message with the normalised base; a failing `unlink` in the
destructor ends in an abort that is preceded by a critical message with `name_`, the path
of the file; a failing `close` in the destructor ends in an abort that is preceded by a
line on stderr with the number of the descriptor, which is not the path. -/
theorem TemporaryFile_failures_are_fatal :
    (∀ (pick : Pick) (base : Str) (early : Bool) (w : World),
      (mkstemp pick (c_str (tmplBuffer w base)) w).1.1 = -1 →
      TemporaryFile.construct pick base early w = Run.aborted
        (afterAbort ⟨"int TemporaryFile::MakeTemp(const string&)".toList, fileStreamH, 63⟩
          ("Error while making a temporary based on '".toList
            ++ TemporaryFile.NormalizeTempPrefix w base ++ "'".toList)
          (mkstemp pick (c_str (tmplBuffer w base)) w).2)) ∧
    (∀ (t : TemporaryFile) (w : World), t.fd_ ≠ -1 → t.unlink_ = false →
      (unlink (c_str t.name_) w).1 ≠ 0 →
      t.destroy w = Run.aborted
        (afterAbort ⟨"TemporaryFile::~TemporaryFile()".toList, fileStreamH, 113⟩
          ("Error while deleting '".toList ++ t.name_ ++ "'".toList)
          (unlink (c_str t.name_) w).2)) ∧
    (∀ (t : TemporaryFile) (w : World), t.fd_ ≠ -1 →
      (t.unlink_ = false → (unlink (c_str t.name_) w).1 = 0) →
      (close t.fd_ (if t.unlink_ = false then (unlink (c_str t.name_) w).2 else w)).1 ≠ 0 →
      t.destroy w = Run.aborted
        { (close t.fd_ (if t.unlink_ = false then (unlink (c_str t.name_) w).2 else w)).2 with
          out := (close t.fd_
              (if t.unlink_ = false then (unlink (c_str t.name_) w).2 else w)).2.out
            ++ [Event.cerr ("Could not close file ".toList ++ (toString t.fd_).toList)] }) := by
  refine ⟨TemporaryFile.construct_mkstemp_failed, ?_, ?_⟩
  · intro t w hfd hu hfail
    unfold TemporaryFile.destroy
    simp only [ne_eq, hfd, not_false_eq_true, hu, and_self, if_true, hfail, ABORT_eq,
      fmt_deleting]
  · intro t w hfd hu hfail
    unfold TemporaryFile.destroy
    cases hunl : t.unlink_ with
    | false =>
      have hu0 := hu hunl
      simp only [hunl, if_true] at hfail
      simp only [ne_eq, hfd, not_false_eq_true, and_self, if_true, hu0, not_true_eq_false,
        if_false, hfail]
    | true =>
      simp only [hunl, Bool.true_eq_false, if_false] at hfail
      simp only [ne_eq, hfd, not_false_eq_true, Bool.true_eq_false, and_false, if_false,
        if_true, hfail]

/-- Witness for the amended C9 in `world0`: a creation in the read-only directory `/ro`, the
destruction of a kept temporary file whose path is gone, and the destruction of a
temporary file whose descriptor is not open, all abort. -/
theorem TemporaryFile_failures_are_fatal_witness :
    (TemporaryFile.construct pickFirst "/ro".toList true world0).isAborted = true ∧
    (TemporaryFile.destroy ⟨3, false, "/tmp/gone".toList ++ [NUL]⟩ world0).isAborted = true ∧
    (TemporaryFile.destroy ⟨3, true, "/tmp/gone".toList ++ [NUL]⟩ world0).isAborted = true := by
  refine ⟨?_, ?_, ?_⟩
  · rw [TemporaryFile_failures_are_fatal.1 pickFirst "/ro".toList true world0 (by decide)]
    rfl
  · rw [TemporaryFile_failures_are_fatal.2.1 ⟨3, false, "/tmp/gone".toList ++ [NUL]⟩ world0
      (by decide) rfl (by decide)]
    rfl
  · rw [TemporaryFile_failures_are_fatal.2.2 ⟨3, true, "/tmp/gone".toList ++ [NUL]⟩ world0
      (by decide) (by decide) (by decide)]
    rfl

/-- The extension is compared character by character, and a `.gz` in a directory name does
not count: neither `/tmp/a.GZ` nor `/tmp.gz/a` has the extension `.gz`, while the hidden
file `/tmp/.gz` has. -/
theorem extension_examples :
    extension "/tmp/a.GZ".toList = ".GZ".toList ∧
    extension "/tmp.gz/a".toList = [] ∧
    extension "/tmp/.gz".toList = ".gz".toList ∧
    extension "/tmp/a.tar.gz".toList = ".gz".toList := by
  decide

end Marian
